import Mathlib

/-!
Verification of the juker Jupyter-kernel server (Rust) against its
natural-language specification.

Shallow embedding conventions:
* `JVal` models `serde_json::Value` (numbers restricted to integers, which
  covers every number the program itself constructs).
* Byte strings (`bytes::Bytes`, `&[u8]`) are `List Nat`.
* The external crates `serde_json` (document serialization/parsing) and
  `hmac_sha256` (the raw MAC) are abstracted as function parameters; the
  protocol logic built on top of them is embedded from the source.
* Nondeterministic header material (`Uuid::new_v4`, `chrono::Utc::now`) is
  supplied by an oracle `fr : Nat → String × String` (msg_id, date) indexed
  by a generation counter threaded through the state.
* `async` control flow is sequential in the source's shell loop (the single
  suspension point is awaited inline), so it is embedded as plain sequential
  state passing producing a trace of send events.
-/

namespace Juker

/-- Model of `serde_json::Value`; numbers restricted to `Int`
(the program only ever builds integer numbers). -/
inductive JVal where
  | null : JVal
  | bool : Bool → JVal
  | num : Int → JVal
  | str : String → JVal
  | arr : List JVal → JVal
  | obj : List (String × JVal) → JVal

/-- Key lookup in an object's field list (`serde_json::Map::get`;
keys are unique in every object the program builds). -/
def lookupJ : List (String × JVal) → String → JVal
  | [], _ => .null
  | (k, v) :: rest, key => if k = key then v else lookupJ rest key

/-- `value[key]` (the `Index` impl on `serde_json::Value`): field of an
object, `Null` for a missing key or a non-object. -/
def JVal.index (v : JVal) (key : String) : JVal :=
  match v with
  | .obj kvs => lookupJ kvs key
  | _ => .null

/-- `Value::as_str`. -/
def JVal.as_str : JVal → Option String
  | .str s => some s
  | _ => none

/-- `Value::as_bool`. -/
def JVal.as_bool : JVal → Option Bool
  | .bool b => some b
  | _ => none

/-- `value == "literal"` (serde's `PartialEq<str>` for `Value`):
true exactly on an equal string value. -/
def JVal.eqStr : JVal → String → Bool
  | .str s, t => s = t
  | _, _ => false

/-- Byte strings (`bytes::Bytes`, `&[u8]`), one `Nat` per byte. -/
abbrev Bytes := List Nat

/-- Bytes of an ASCII string (all strings the codec compares are ASCII,
where UTF-8 bytes coincide with code points). -/
def strBytes (s : String) : Bytes := s.data.map Char.toNat

/-- `DELIMITER`: the protocol frame separator `<IDS|MSG>` (lib.rs). -/
def DELIMITER : Bytes := strBytes "<IDS|MSG>"

/-- The error cases of `JuError` (lib.rs) reachable in the embedded logic.
`JsonError` wraps an external `serde_json::Error`, abstracted to a bare tag. -/
inductive JuError where
  | JsonError : JuError
  | UnsupportedMessageType : String → JuError
  | MalformedMessage : String → JuError
  | UnknownDigest : String → JuError
  | NoCode : String → JuError
  | GeneralJukerError : String → JuError
deriving DecidableEq

/-- `ConnectionInfo` (con_info.rs). -/
structure ConnectionInfo where
  kernel_name : String
  ip : String
  control_port : Nat
  shell_port : Nat
  stdin_port : Nat
  hb_port : Nat
  iopub_port : Nat
  key : String
  transport : String
  signature_scheme : String

/-- ASCII code of the lowercase hex digit of `n < 16` (the `hex` crate). -/
def hexDigit (n : Nat) : Nat := if n < 10 then 48 + n else 87 + n

/-- `hex::encode`: two lowercase hex characters per byte. -/
def hexEncode (bs : Bytes) : Bytes :=
  bs.flatMap (fun b => [hexDigit (b / 16), hexDigit (b % 16)])

/-- `Digester` (digester.rs). The keyed variant carries the abstract
HMAC-SHA256 primitive already keyed: a function from the full update
stream to the finalized (raw, pre-hex) MAC bytes — the external
`hmac_sha256::HMAC` clone/update/finalize discipline amounts to applying
this function to the concatenation of the fed buffers. -/
inductive Digester where
  | HmacSha256 : (Bytes → Bytes) → Digester
  | none : Digester

/-- `Digester::new` (digester.rs). `hmacNew` abstracts
`hmac_sha256::HMAC::new`: it turns key bytes into the keyed MAC function. -/
def Digester.new (hmacNew : Bytes → (Bytes → Bytes)) (ci : ConnectionInfo) :
    Except JuError Digester :=
  if ci.signature_scheme = "" then
    .ok .none
  else if ci.signature_scheme = "hmac-sha256" then
    .ok (.HmacSha256 (hmacNew (strBytes ci.key)))
  else
    .error (.UnknownDigest ci.signature_scheme)

/-- `Digester::digest` (digester.rs): feed the four buffers in order into a
fresh clone of the keyed MAC, finalize, hex-encode; the `None` variant
returns an empty byte string. -/
def Digester.digest (d : Digester) (d1 d2 d3 d4 : Bytes) : Bytes :=
  match d with
  | .HmacSha256 mac => hexEncode (mac (d1 ++ d2 ++ d3 ++ d4))
  | .none => []

/-- The message structure (message.rs `JuMessage`), generic over the
document type so the wire codec can be stated for an arbitrary
serializable document (the source treats the four documents as opaque
`serde_json::Value`s). -/
structure JuMsg (α : Type) where
  zmq_ids : List Bytes
  header : α
  parent_header : α
  metadata : α
  content : α
deriving DecidableEq

/-- `JuMessage::with_content`. -/
def JuMsg.with_content (m : JuMsg α) (c : α) : JuMsg α := { m with content := c }

/-- `JuMessage::to_zmq_message` (message.rs): start from the single
delimiter frame, push the routing ids on the front in reverse iteration
order (restoring original order), then push signature and the four
serialized documents on the back. `ser` abstracts
`serde_json::to_vec` (total on `Value`). -/
def JuMsg.to_zmq_message (ser : α → Bytes) (m : JuMsg α) (digester : Digester) :
    List Bytes :=
  let msg : List Bytes := [DELIMITER]
  let msg := m.zmq_ids.reverse.foldl (fun acc id => id :: acc) msg
  let header := ser m.header
  let parent_header := ser m.parent_header
  let metadata := ser m.metadata
  let content := ser m.content
  let hmac := digester.digest header parent_header metadata content
  msg ++ [hmac, header, parent_header, metadata, content]

/-- The `try_fold` scan of `TryFrom<ZmqMessage>` (message.rs): accumulate
frames into the routing ids until one equals the delimiter; `none` when no
frame does (`break_value()` is empty). -/
def splitOnDelim : List Bytes → Option (List Bytes × List Bytes)
  | [] => Option.none
  | f :: rest =>
    if f = DELIMITER then some ([], rest)
    else
      match splitOnDelim rest with
      | some (ids, tail) => some (f :: ids, tail)
      | Option.none => Option.none

/-- The post-delimiter part of `TryFrom<ZmqMessage>` (message.rs): the five
`it.next()` steps, in order signature, header, parent_header, metadata,
content; the signature is read but never inspected. `parse` abstracts
`serde_json::from_slice::<Value>`. -/
def parseParts (parse : Bytes → Option α) (zmq_ids : List Bytes) :
    List Bytes → Except JuError (JuMsg α)
  | [] => .error (.MalformedMessage "no signature")
  | _sig :: rest1 =>
    match rest1 with
    | [] => .error (.MalformedMessage "no header")
    | hb :: rest2 =>
      match parse hb with
      | Option.none => .error .JsonError
      | some header =>
        match rest2 with
        | [] => .error (.MalformedMessage "no parent header")
        | pb :: rest3 =>
          match parse pb with
          | Option.none => .error .JsonError
          | some parent_header =>
            match rest3 with
            | [] => .error (.MalformedMessage "no metadata")
            | mb :: rest4 =>
              match parse mb with
              | Option.none => .error .JsonError
              | some metadata =>
                match rest4 with
                | [] => .error (.MalformedMessage "no content")
                | cb :: _rest5 =>
                  match parse cb with
                  | Option.none => .error .JsonError
                  | some content =>
                    .ok ⟨zmq_ids, header, parent_header, metadata, content⟩

/-- `TryFrom<ZmqMessage> for JuMessage` (message.rs): delimiter scan, then
the five-part tail. -/
def tryFromZmq (parse : Bytes → Option α) (frames : List Bytes) :
    Except JuError (JuMsg α) :=
  match splitOnDelim frames with
  | Option.none => .error (.MalformedMessage "no delimiter found")
  | some (zmq_ids, rest) => parseParts parse zmq_ids rest

/-- The concrete message type of the server logic: documents are JSON. -/
abbrev JuMessage := JuMsg JVal

/-- Replacement loop behind `str::replace`: scan left to right, substitute
every non-overlapping occurrence of `pat`. Structural recursion on a fuel
that starts at the string's length (each step consumes at least one
character since `pat` is nonempty at every call site). -/
def replaceAux (pat rep : List Char) : Nat → List Char → List Char
  | _, [] => []
  | 0, l => l
  | fuel + 1, c :: cs =>
    if pat.isPrefixOf (c :: cs) then rep ++ replaceAux pat rep fuel ((c :: cs).drop pat.length)
    else c :: replaceAux pat rep fuel cs

/-- Rust `str::replace(pat, rep)`: all non-overlapping occurrences,
left to right. -/
def strReplace (s pat rep : String) : String :=
  String.mk (replaceAux pat.data rep.data s.data.length s.data)

/-- `JuServerId` (server_id.rs): the per-server session identity. The
random `Uuid` session id is an abstract string. -/
structure JuServerId where
  session_id : String
  digester : Digester

/-- `JuServerId::new_header` (server_id.rs). `ud` supplies the per-call
fresh material: `ud.1` the random `msg_id` (`Uuid::new_v4`), `ud.2` the
RFC-3339 timestamp (`chrono::Utc::now`). -/
def new_header (jsi : JuServerId) (ud : String × String) (msg_type : String) : JVal :=
  .obj [("msg_id", .str ud.1),
        ("username", .str "kernel"),
        ("session", .str jsi.session_id),
        ("msg_type", .str msg_type),
        ("version", .str "5.3"),
        ("date", .str ud.2)]

/-- `JuServerId::new_message` (server_id.rs): fresh unsolicited message,
empty routing ids and empty parent header. -/
def new_message (jsi : JuServerId) (ud : String × String) (msg_type : String) : JuMessage :=
  { zmq_ids := []
    header := new_header jsi ud msg_type
    parent_header := .obj []
    metadata := .obj []
    content := .obj [] }

/-- `JuServerId::new_derived_message` (server_id.rs): fresh header, parent
header set to the trigger's full header, empty routing ids. -/
def new_derived_message (jsi : JuServerId) (ud : String × String)
    (msg : JuMessage) (msg_type : String) : JuMessage :=
  { zmq_ids := []
    header := new_header jsi ud msg_type
    parent_header := msg.header
    metadata := .obj []
    content := .obj [] }

/-- `JuServerId::new_reply_message` (server_id.rs, identical to
`JuServer::new_reply_message` in server.rs): msg_type from the trigger via
`get("msg_type").and_then(as_str).unwrap_or("")` then
`.replace("_request", "_reply")`; routing ids copied; parent header is the
trigger's header. -/
def new_reply_message (jsi : JuServerId) (ud : String × String)
    (msg : JuMessage) : JuMessage :=
  let msg_type := strReplace (((msg.header.index "msg_type").as_str).getD "")
      "_request" "_reply"
  { zmq_ids := msg.zmq_ids
    header := new_header jsi ud msg_type
    parent_header := msg.header
    metadata := .obj []
    content := .obj [] }

/-- `JuKernelInfo` (api.rs); help links are (text, url) pairs. -/
structure JuKernelInfo where
  name : String
  version : String
  mimetype : String
  file_extension : String
  banner : String
  help_links : List (String × String)

/-- `EvalValue` (message.rs). -/
structure EvalValue where
  data : JVal
  metadata : JVal

/-- `EvalResult` (message.rs). -/
inductive EvalResult where
  | Success : List EvalValue → EvalResult
  | Error : (ename : JVal) → (evalue : JVal) → (traceback : List JVal) → EvalResult

/-- The pluggable `JuKernel` capability (api.rs): static metadata and a
pure model of the (awaited inline) code evaluation. -/
structure JuKernel where
  kernel_info : JuKernelInfo
  eval_code : String → EvalResult

/-- `u32::MAX + 1`: the execution counter lives in a `u32`. -/
def U32MOD : Nat := 2 ^ 32

/-- Mutable state of `JuShellProcessor` relevant to the logic: the `u32`
execution counter and the generation index into the freshness oracle. -/
structure PState where
  execution_count : Nat
  gen : Nat
deriving DecidableEq

/-- One observable send: publish on iopub, reply on shell, or send on the
control channel. -/
inductive Event where
  | pub : JuMessage → Event
  | shell : JuMessage → Event
  | control : JuMessage → Event

/-- Content of the `kernel_info_request` reply (shell_processor.rs). -/
def kernelInfoContent (info : JuKernelInfo) : JVal :=
  .obj [("protocol_version", .str "5.3"),
        ("implementation", .str "juker"),
        ("implementation_version", .str "0.1.0"),
        ("language_info", .obj
          [("name", .str info.name),
           ("version", .str info.version),
           ("mimetype", .str info.mimetype),
           ("file_extension", .str info.file_extension)]),
        ("banner", .str info.banner),
        ("help_links", .arr (info.help_links.map
          (fun l => .obj [("text", .str l.1), ("url", .str l.2)])))]

/-- The `for ev in results` loop of the success arm of
`process_shell_msg` (shell_processor.rs): one derived `execute_result`
message per produced value, each consuming one freshness tick. -/
def execResultMsgs (fr : Nat → String × String) (jsi : JuServerId)
    (msg : JuMessage) (cnt : Nat) : Nat → List EvalValue → List JuMessage
  | _, [] => []
  | g, ev :: evs =>
    (new_derived_message jsi (fr g) msg "execute_result").with_content
      (.obj [("data", ev.data),
             ("metadata", ev.metadata),
             ("execution_count", .num cnt)])
    :: execResultMsgs fr jsi msg cnt (g + 1) evs

/-- JSON string escaping (backslash and quote; the control-character
escapes of serde never arise in the values the program renders). -/
def escapeJ (s : String) : String :=
  String.mk (s.data.flatMap (fun c =>
    if c = '\\' then ['\\', '\\'] else if c = '"' then ['\\', '"'] else [c]))

mutual

/-- `Value::to_string` (serde's compact JSON rendering), used by the source
only to build the `UnsupportedMessageType` error payload. -/
def renderJ : JVal → String
  | .null => "null"
  | .bool true => "true"
  | .bool false => "false"
  | .num n => toString n
  | .str s => "\"" ++ escapeJ s ++ "\""
  | .arr xs => "[" ++ renderArr xs ++ "]"
  | .obj kvs => "\x7b" ++ renderObj kvs ++ "\x7d"

/-- Comma-separated rendering of array elements. -/
def renderArr : List JVal → String
  | [] => ""
  | [x] => renderJ x
  | x :: xs => renderJ x ++ "," ++ renderArr xs

/-- Comma-separated rendering of object fields. -/
def renderObj : List (String × JVal) → String
  | [] => ""
  | [(k, v)] => "\"" ++ escapeJ k ++ "\":" ++ renderJ v
  | (k, v) :: kvs => "\"" ++ escapeJ k ++ "\":" ++ renderJ v ++ "," ++ renderObj kvs

end

/-- `JuShellProcessor::process_shell_msg` (shell_processor.rs): dispatch on
`msg.header["msg_type"]`; returns the updated state, the sends it issued in
order, and `Ok(())` or the dispatch error. The `+= 1` on the `u32` counter
happens before the `content["code"]` check. -/
def process_shell_msg (k : JuKernel) (fr : Nat → String × String)
    (jsi : JuServerId) (st : PState) (msg : JuMessage) :
    PState × List Event × Except JuError Unit :=
  if (msg.header.index "msg_type").eqStr "kernel_info_request" then
    let reply := (new_reply_message jsi (fr st.gen) msg).with_content
      (kernelInfoContent k.kernel_info)
    ({ st with gen := st.gen + 1 }, [.shell reply], .ok ())
  else if (msg.header.index "msg_type").eqStr "is_complete_request" then
    let reply := (new_reply_message jsi (fr st.gen) msg).with_content
      (.obj [("status", .str "unknown")])
    ({ st with gen := st.gen + 1 }, [.shell reply], .ok ())
  else if (msg.header.index "msg_type").eqStr "execute_request" then
    let st := { st with execution_count := (st.execution_count + 1) % U32MOD }
    match msg.content.index "code" with
    | .str code =>
      let code_msg := (new_derived_message jsi (fr st.gen) msg "execute_input").with_content
        (.obj [("code", .str code),
               ("execution_count", .num st.execution_count)])
      let st := { st with gen := st.gen + 1 }
      match k.eval_code code with
      | .Success results =>
        let reply := (new_reply_message jsi (fr st.gen) msg).with_content
          (.obj [("status", .str "ok"),
                 ("execution_count", .num st.execution_count)])
        let outs := execResultMsgs fr jsi msg st.execution_count (st.gen + 1) results
        ({ st with gen := st.gen + 1 + results.length },
         .pub code_msg :: .shell reply :: outs.map .pub, .ok ())
      | .Error ename evalue traceback =>
        let reply := (new_reply_message jsi (fr st.gen) msg).with_content
          (.obj [("status", .str "error"),
                 ("ename", ename),
                 ("evalue", evalue),
                 ("traceback", .arr traceback),
                 ("execution_count", .num st.execution_count)])
        let err_msg := (new_derived_message jsi (fr (st.gen + 1)) msg "error").with_content
          (.obj [("ename", ename),
                 ("evalue", evalue),
                 ("traceback", .arr traceback)])
        ({ st with gen := st.gen + 2 },
         [.pub code_msg, .shell reply, .pub err_msg], .ok ())
    | _ =>
      (st, [], .error (.NoCode "execute_request message missing 'code' field"))
  else
    (st, [], .error (.UnsupportedMessageType (renderJ (msg.header.index "msg_type"))))

/-- One iteration of the shell branch of `JuShellProcessor::run`
(shell_processor.rs): publish the derived "busy" status, dispatch (errors
are logged and swallowed), publish a fresh "idle" status. -/
def handle_shell (k : JuKernel) (fr : Nat → String × String) (jsi : JuServerId)
    (st : PState) (msg : JuMessage) : PState × List Event :=
  let busy_msg := (new_derived_message jsi (fr st.gen) msg "status").with_content
    (.obj [("execution_state", .str "busy")])
  let st := { st with gen := st.gen + 1 }
  let (st, evs, _res) := process_shell_msg k fr jsi st msg
  let idle_msg := (new_message jsi (fr st.gen) "status").with_content
    (.obj [("execution_state", .str "idle")])
  let st := { st with gen := st.gen + 1 }
  (st, .pub busy_msg :: evs ++ [.pub idle_msg])

/-- The `loop/select!` of `JuShellProcessor::run` over a finite inbound
shell sequence; the end of the list models the shutdown notification, on
which the loop returns without publishing anything further. -/
def run_shell (k : JuKernel) (fr : Nat → String × String) (jsi : JuServerId) :
    PState → List JuMessage → PState × List Event
  | st, [] => (st, [])
  | st, msg :: msgs =>
    let (st1, evs) := handle_shell k fr jsi st msg
    let (st2, evs') := run_shell k fr jsi st1 msgs
    (st2, evs ++ evs')

/-- `JuShellProcessor::new` followed by `run` (shell_processor.rs):
publish "starting", publish the initial "idle", then the loop, starting
from a zero execution counter. -/
def shell_processor_run (k : JuKernel) (fr : Nat → String × String)
    (jsi : JuServerId) (msgs : List JuMessage) : PState × List Event :=
  let starting_msg := (new_message jsi (fr 0) "status").with_content
    (.obj [("execution_state", .str "starting")])
  let idle_msg := (new_message jsi (fr 1) "status").with_content
    (.obj [("execution_state", .str "idle")])
  let (st, evs) := run_shell k fr jsi ⟨0, 2⟩ msgs
  (st, .pub starting_msg :: .pub idle_msg :: evs)

/-- The control-message arm of `JuServer::run` (server.rs): on
`shutdown_request` read the optional `restart` boolean (default false),
build the "ok" reply, and report the restart decision; any other string
`msg_type` and a missing/non-string `msg_type` are logged and skipped. -/
def control_step (jsi : JuServerId) (ud : String × String) (msg : JuMessage) :
    Option (JuMessage × Bool) :=
  match (msg.header.index "msg_type").as_str with
  | some s =>
    if s = "shutdown_request" then
      let want_restart := match (msg.content.index "restart").as_bool with
        | some b => b
        | Option.none => false
      let reply := (new_reply_message jsi ud msg).with_content
        (.obj [("status", .str "ok"), ("restart", .bool want_restart)])
      some (reply, want_restart)
    else Option.none
  | Option.none => Option.none

/-- The control side of the `JuServer::run` loop (server.rs) over a finite
inbound control sequence: send the shutdown reply on the control channel
and terminate returning the restart flag; non-shutdown messages are
skipped. `none` means the sequence ended without a shutdown request. -/
def control_run (jsi : JuServerId) (fr : Nat → String × String) :
    Nat → List JuMessage → List Event × Option Bool
  | _, [] => ([], Option.none)
  | g, msg :: msgs =>
    match control_step jsi (fr g) msg with
    | some (reply, restart) => ([.control reply], some restart)
    | Option.none => control_run jsi fr g msgs

/-! ## Codec lemmas -/

/-- Pushing a list on the front in reverse iteration order restores it. -/
theorem foldl_push_front (l : List Bytes) (acc : List Bytes) :
    l.reverse.foldl (fun a i => i :: a) acc = l ++ acc := by
  induction l generalizing acc with
  | nil => rfl
  | cons x xs ih => simp [List.foldl_append, ih]

/-- The wire layout of an encoded message. -/
theorem to_zmq_message_eq {α : Type} (ser : α → Bytes) (m : JuMsg α) (d : Digester) :
    m.to_zmq_message ser d
      = m.zmq_ids ++ [DELIMITER,
          d.digest (ser m.header) (ser m.parent_header) (ser m.metadata) (ser m.content),
          ser m.header, ser m.parent_header, ser m.metadata, ser m.content] := by
  simp [JuMsg.to_zmq_message, foldl_push_front]

/-- The delimiter scan finds the first delimiter frame and splits there. -/
theorem splitOnDelim_append (ids rest : List Bytes)
    (h : ∀ f ∈ ids, f ≠ DELIMITER) :
    splitOnDelim (ids ++ DELIMITER :: rest) = some (ids, rest) := by
  induction ids with
  | nil => simp [splitOnDelim]
  | cons x xs ih =>
    have hx : x ≠ DELIMITER := h x (by simp)
    have hxs : ∀ f ∈ xs, f ≠ DELIMITER := fun f hf => h f (by simp [hf])
    simp [splitOnDelim, hx, ih hxs]

/-- The delimiter scan fails exactly when no frame is the delimiter. -/
theorem splitOnDelim_eq_none_iff (frames : List Bytes) :
    splitOnDelim frames = Option.none ↔ ∀ f ∈ frames, f ≠ DELIMITER := by
  induction frames with
  | nil => simp [splitOnDelim]
  | cons x xs ih =>
    by_cases hx : x = DELIMITER
    · subst hx
      simp [splitOnDelim]
    · simp only [splitOnDelim, if_neg hx, List.mem_cons]
      rcases hs : splitOnDelim xs with _ | ⟨ids, tail⟩
      · have hxs := ih.mp hs
        simp only [true_iff]
        rintro f (rfl | hf)
        · exact hx
        · exact hxs f hf
      · constructor
        · intro h
          exact absurd h (by simp)
        · intro hall
          have hnone := ih.mpr (fun f hf => hall f (Or.inr hf))
          rw [hs] at hnone
          exact absurd hnone (by simp)

/-- The post-delimiter parse never produces the "no delimiter" failure. -/
theorem parseParts_ne_noDelim {α : Type} (parse : Bytes → Option α)
    (ids rest : List Bytes) :
    parseParts parse ids rest ≠ .error (.MalformedMessage "no delimiter found") := by
  rcases rest with _ | ⟨s, rest⟩
  · simp [parseParts]
  rcases rest with _ | ⟨hb, rest⟩
  · simp [parseParts]
  simp only [parseParts]
  rcases h1 : parse hb with _ | header
  · simp [h1]
  rcases rest with _ | ⟨pb, rest⟩
  · simp [h1]
  rcases h2 : parse pb with _ | ph
  · simp [h1, h2]
  rcases rest with _ | ⟨mb, rest⟩
  · simp [h1, h2]
  rcases h3 : parse mb with _ | md
  · simp [h1, h2, h3]
  rcases rest with _ | ⟨cb, rest⟩
  · simp [h1, h2, h3]
  rcases h4 : parse cb with _ | ct
  · simp [h1, h2, h3, h4]
  · simp [h1, h2, h3, h4]

/-! ## Claim theorems: wire codec and digester -/

/-- C4. Encode wire layout: encoding produces exactly the frames
`[routing ids in order] DELIMITER signature header parent_header metadata
content`; the delimiter is the byte string `<IDS|MSG>`; the signature frame
is the digest over the four serialized buffers in order, and it is the
empty byte string whenever the digester was configured from a
`ConnectionInfo` with no signature scheme. -/
theorem encode_wire_layout {α : Type} (ser : α → Bytes) (m : JuMsg α) (d : Digester) :
    m.to_zmq_message ser d
      = m.zmq_ids ++ [DELIMITER,
          d.digest (ser m.header) (ser m.parent_header) (ser m.metadata) (ser m.content),
          ser m.header, ser m.parent_header, ser m.metadata, ser m.content]
    ∧ DELIMITER = strBytes "<IDS|MSG>"
    ∧ (∀ (hm : Bytes → Bytes → Bytes) (ci : ConnectionInfo) (dg : Digester),
        ci.signature_scheme = "" → Digester.new hm ci = .ok dg →
        ∀ b1 b2 b3 b4 : Bytes, dg.digest b1 b2 b3 b4 = []) := by
  refine ⟨to_zmq_message_eq ser m d, rfl, ?_⟩
  intro hm ci dg hscheme hnew b1 b2 b3 b4
  rw [Digester.new, if_pos hscheme] at hnew
  cases hnew
  rfl

/-- C4 witness. The layout at a concrete message and digester, with the
no-scheme conjunct discharged at a concrete `ConnectionInfo`. -/
theorem encode_wire_layout_witness :
    (JuMsg.mk [[1], [2]] [10] [11] [12] [13] : JuMsg Bytes).to_zmq_message (fun b => b) .none
      = [[1], [2]] ++ [DELIMITER, [], [10], [11], [12], [13]]
    ∧ Digester.none.digest [1] [2] [3] [4] = [] := by
  have h := encode_wire_layout (fun b => b)
    (JuMsg.mk [[1], [2]] [10] [11] [12] [13] : JuMsg Bytes) .none
  refine ⟨h.1, ?_⟩
  exact h.2.2 (fun _ _ => [9]) (ConnectionInfo.mk "" "" 0 0 0 0 0 "" "" "") .none rfl rfl [1] [2] [3] [4]

/-- C1. Codec round trip: for a message whose routing-id frames differ
from the delimiter, with serialization and parsing mutually inverse (the
serde round trip on `Value`), decoding the encoded frame sequence returns
the original message — routing ids, header, parent header, metadata and
content exactly — for any digester, and the signature frame of the encoded
sequence is the digest recomputed over the four serialized buffers. -/
theorem codec_round_trip {α : Type} (ser : α → Bytes) (parse : Bytes → Option α)
    (d : Digester) (m : JuMsg α)
    (hids : ∀ id ∈ m.zmq_ids, id ≠ DELIMITER)
    (hrt : ∀ v, parse (ser v) = some v) :
    tryFromZmq parse (m.to_zmq_message ser d) = .ok m
    ∧ (m.to_zmq_message ser d).get? (m.zmq_ids.length + 1)
        = some (d.digest (ser m.header) (ser m.parent_header)
            (ser m.metadata) (ser m.content)) := by
  rw [to_zmq_message_eq]
  constructor
  · show tryFromZmq parse (m.zmq_ids ++ DELIMITER :: _) = .ok m
    rw [tryFromZmq, splitOnDelim_append _ _ hids]
    simp [parseParts, hrt]
  · rw [List.get?_eq_getElem?, List.getElem?_append_right (by simp)]
    simp

/-- C1 witness. Round trip at a concrete two-hop message over a
concrete one-byte codec. -/
theorem codec_round_trip_witness :
    (∀ id ∈ ([[1], [2]] : List Bytes), id ≠ DELIMITER)
    ∧ tryFromZmq (fun b => match b with | [n] => some n | _ => Option.none)
        ((JuMsg.mk [[1], [2]] 10 11 12 13 : JuMsg Nat).to_zmq_message (fun n => [n]) .none)
        = .ok (JuMsg.mk [[1], [2]] 10 11 12 13) := by
  refine ⟨by decide, ?_⟩
  exact (codec_round_trip (fun n => [n])
    (fun b => match b with | [n] => some n | _ => Option.none) .none
    (JuMsg.mk [[1], [2]] 10 11 12 13) (by decide) (fun v => rfl)).1

/-- C3. Decode failure coverage: the "no delimiter found" failure
occurs exactly when no frame equals the delimiter; a delimiter-terminated
sequence truncated after it fails with a `MalformedMessage` naming the
first absent part (signature, header, parent header, metadata, content, in
that order, the already-present documents parsing); a document frame that
does not parse as JSON yields the JSON parse failure; and the content of
the signature frame never influences the result. -/
theorem decode_failure_coverage {α : Type} (parse : Bytes → Option α) :
    (∀ frames : List Bytes,
      tryFromZmq parse frames = .error (.MalformedMessage "no delimiter found")
        ↔ ∀ f ∈ frames, f ≠ DELIMITER)
    ∧ (∀ ids : List Bytes, (∀ f ∈ ids, f ≠ DELIMITER) →
        (tryFromZmq parse (ids ++ [DELIMITER])
          = .error (.MalformedMessage "no signature"))
        ∧ (∀ s, tryFromZmq parse (ids ++ [DELIMITER, s])
            = .error (.MalformedMessage "no header"))
        ∧ (∀ s hb h, parse hb = some h →
            tryFromZmq parse (ids ++ [DELIMITER, s, hb])
              = .error (.MalformedMessage "no parent header"))
        ∧ (∀ s hb h pb p, parse hb = some h → parse pb = some p →
            tryFromZmq parse (ids ++ [DELIMITER, s, hb, pb])
              = .error (.MalformedMessage "no metadata"))
        ∧ (∀ s hb h pb p mb mv, parse hb = some h → parse pb = some p →
            parse mb = some mv →
            tryFromZmq parse (ids ++ [DELIMITER, s, hb, pb, mb])
              = .error (.MalformedMessage "no content"))
        ∧ (∀ s hb t, parse hb = Option.none →
            tryFromZmq parse (ids ++ DELIMITER :: s :: hb :: t) = .error .JsonError)
        ∧ (∀ s hb h pb t, parse hb = some h → parse pb = Option.none →
            tryFromZmq parse (ids ++ DELIMITER :: s :: hb :: pb :: t)
              = .error .JsonError)
        ∧ (∀ s hb h pb p mb t, parse hb = some h → parse pb = some p →
            parse mb = Option.none →
            tryFromZmq parse (ids ++ DELIMITER :: s :: hb :: pb :: mb :: t)
              = .error .JsonError)
        ∧ (∀ s hb h pb p mb mv cb t, parse hb = some h → parse pb = some p →
            parse mb = some mv → parse cb = Option.none →
            tryFromZmq parse (ids ++ DELIMITER :: s :: hb :: pb :: mb :: cb :: t)
              = .error .JsonError)
        ∧ (∀ s1 s2 t, tryFromZmq parse (ids ++ DELIMITER :: s1 :: t)
            = tryFromZmq parse (ids ++ DELIMITER :: s2 :: t))) := by
  constructor
  · intro frames
    constructor
    · intro h
      rcases hs : splitOnDelim frames with _ | ⟨ids, rest⟩
      · exact (splitOnDelim_eq_none_iff frames).mp hs
      · rw [tryFromZmq, hs] at h
        exact absurd h (parseParts_ne_noDelim parse ids rest)
    · intro hall
      rw [tryFromZmq, (splitOnDelim_eq_none_iff frames).mpr hall]
  · intro ids hids
    have key : ∀ rest, tryFromZmq parse (ids ++ DELIMITER :: rest)
        = parseParts parse ids rest := by
      intro rest
      rw [tryFromZmq, splitOnDelim_append _ _ hids]
    refine ⟨?_, ?_, ?_, ?_, ?_, ?_, ?_, ?_, ?_, ?_⟩
    · exact key []
    · intro s
      exact key [s]
    · intro s hb h hh
      rw [show ids ++ [DELIMITER, s, hb] = ids ++ DELIMITER :: [s, hb] from rfl, key]
      simp [parseParts, hh]
    · intro s hb h pb p hh hp
      rw [show ids ++ [DELIMITER, s, hb, pb] = ids ++ DELIMITER :: [s, hb, pb] from rfl, key]
      simp [parseParts, hh, hp]
    · intro s hb h pb p mb mv hh hp hmv
      rw [show ids ++ [DELIMITER, s, hb, pb, mb] = ids ++ DELIMITER :: [s, hb, pb, mb] from rfl,
        key]
      simp [parseParts, hh, hp, hmv]
    · intro s hb t hh
      rw [key]
      simp [parseParts, hh]
    · intro s hb h pb t hh hp
      rw [key]
      rcases t with _ | ⟨x, t⟩ <;> simp [parseParts, hh, hp]
    · intro s hb h pb p mb t hh hp hmv
      rw [key]
      rcases t with _ | ⟨x, t⟩ <;> simp [parseParts, hh, hp, hmv]
    · intro s hb h pb p mb mv cb t hh hp hmv hc
      rw [key]
      rcases t with _ | ⟨x, t⟩ <;> simp [parseParts, hh, hp, hmv, hc]
    · intro s1 s2 t
      rw [key, key]
      rcases t with _ | ⟨x, t⟩ <;> rfl

/-- C3 witness. The failure conditions at concrete frame sequences over
a concrete one-byte parser. -/
theorem decode_failure_coverage_witness :
    tryFromZmq (fun b => match b with | [n] => some n | _ => Option.none)
        ([[1], [2]] : List Bytes)
      = .error (.MalformedMessage "no delimiter found")
    ∧ tryFromZmq (fun b => match b with | [n] => some n | _ => Option.none)
        [DELIMITER, [0]]
      = .error (.MalformedMessage "no header")
    ∧ tryFromZmq (fun b => match b with | [n] => some n | _ => Option.none)
        [DELIMITER, [0], [7]]
      = .error (.MalformedMessage "no parent header")
    ∧ tryFromZmq (fun b => match b with | [n] => some n | _ => Option.none)
        [DELIMITER, [0], [7, 7]]
      = .error JuError.JsonError := by
  have h := decode_failure_coverage
    (fun b => match b with | [n] => some n | _ => Option.none)
  have h2 := h.2 [] (by simp)
  exact ⟨(h.1 [[1], [2]]).mpr (by decide), h2.2.1 [0],
    h2.2.2.1 [0] [7] 7 rfl, h2.2.2.2.2.2.1 [0] [7, 7] [] rfl⟩

/-- C9. Digester configuration: construction from a `ConnectionInfo`
yields the no-op variant exactly when the signature scheme is the empty
string (and the no-op digest is always empty); yields the keyed
HMAC-SHA256 variant exactly when the scheme is `"hmac-sha256"`; and fails
with `UnknownDigest` carrying the scheme name for every other non-empty
scheme. -/
theorem digester_configuration (hm : Bytes → Bytes → Bytes) (ci : ConnectionInfo) :
    (Digester.new hm ci = .ok .none ↔ ci.signature_scheme = "")
    ∧ (∀ dg : Digester, Digester.new hm ci = .ok dg → ci.signature_scheme = "" →
        ∀ b1 b2 b3 b4 : Bytes, dg.digest b1 b2 b3 b4 = [])
    ∧ ((∃ mac, Digester.new hm ci = .ok (.HmacSha256 mac))
        ↔ ci.signature_scheme = "hmac-sha256")
    ∧ (ci.signature_scheme ≠ "" → ci.signature_scheme ≠ "hmac-sha256" →
        Digester.new hm ci = .error (.UnknownDigest ci.signature_scheme)) := by
  by_cases h1 : ci.signature_scheme = ""
  · refine ⟨by simp [Digester.new, h1], ?_, ?_, fun hno _ => absurd h1 hno⟩
    · intro dg hdg _ b1 b2 b3 b4
      rw [Digester.new, if_pos h1] at hdg
      cases hdg
      rfl
    · constructor
      · rintro ⟨mac, hmac⟩
        rw [Digester.new, if_pos h1] at hmac
        exact absurd hmac (by simp)
      · intro hcontr
        rw [h1] at hcontr
        exact absurd hcontr (by decide)
  · by_cases h2 : ci.signature_scheme = "hmac-sha256"
    · refine ⟨?_, ?_, ?_, fun _ hno => absurd h2 hno⟩
      · rw [Digester.new, if_neg h1, if_pos h2]
        simp [h1]
      · intro dg _ hempty
        exact absurd hempty h1
      · rw [Digester.new, if_neg h1, if_pos h2]
        exact ⟨fun _ => h2, fun _ => ⟨hm (strBytes ci.key), rfl⟩⟩
    · refine ⟨?_, ?_, ?_, fun _ _ => by rw [Digester.new, if_neg h1, if_neg h2]⟩
      · rw [Digester.new, if_neg h1, if_neg h2]
        simp [h1]
      · intro dg _ hempty
        exact absurd hempty h1
      · rw [Digester.new, if_neg h1, if_neg h2]
        simp [h2]

/-- C9 witness. Configuration outcomes at three concrete
`ConnectionInfo` values, one per scheme case. -/
theorem digester_configuration_witness :
    Digester.new (fun _ _ => [9]) (ConnectionInfo.mk "" "" 0 0 0 0 0 "k" "" "")
      = .ok .none
    ∧ (∃ mac, Digester.new (fun _ _ => [9])
        (ConnectionInfo.mk "" "" 0 0 0 0 0 "k" "" "hmac-sha256") = .ok (.HmacSha256 mac))
    ∧ Digester.new (fun _ _ => [9]) (ConnectionInfo.mk "" "" 0 0 0 0 0 "k" "" "md5")
      = .error (.UnknownDigest "md5") := by
  refine ⟨?_, ?_, ?_⟩
  · exact (digester_configuration (fun _ _ => [9])
      (ConnectionInfo.mk "" "" 0 0 0 0 0 "k" "" "")).1.mpr rfl
  · exact (digester_configuration (fun _ _ => [9])
      (ConnectionInfo.mk "" "" 0 0 0 0 0 "k" "" "hmac-sha256")).2.2.1.mpr rfl
  · exact (digester_configuration (fun _ _ => [9])
      (ConnectionInfo.mk "" "" 0 0 0 0 0 "k" "" "md5")).2.2.2 (by decide) (by decide)

/-! ## Claim theorems: reply derivation -/

/-- The `msg_type` field of a synthesized header. -/
theorem index_new_header (jsi : JuServerId) (ud : String × String) (ty : String) :
    (new_header jsi ud ty).index "msg_type" = .str ty := rfl

/-- The claim's own derivation rule, as worded: replace the *trailing*
`_request` suffix of the trigger's `msg_type` by `_reply`, leaving a
string without that suffix unchanged. Stated from the spec sentence, to be
compared against the source's `str::replace` of all occurrences. -/
def replaceTrailingRequestSuffix (s : String) : String :=
  if "_request".data.isSuffixOf s.data then
    String.mk (s.data.take (s.data.length - "_request".data.length)) ++ "_reply"
  else s

/-- C5 counterexample. For a trigger whose `msg_type` is
`"_request_request"` the code's reply `msg_type` is `"_reply_reply"`
(every occurrence replaced), while replacing only the trailing suffix
gives `"_request_reply"`: the claim's universally-stated derivation rule
fails at this trigger. -/
theorem reply_derivation_counterexample :
    (new_reply_message (JuServerId.mk "sess" .none) ("u", "d")
        (JuMsg.mk [] (.obj [("msg_type", .str "_request_request")]) .null .null .null)
      ).header.index "msg_type" = .str "_reply_reply"
    ∧ replaceTrailingRequestSuffix "_request_request" = "_request_reply"
    ∧ "_reply_reply" ≠ "_request_reply" := by
  refine ⟨rfl, by decide, by decide⟩

/-- C5 (amended). Reply derivation: the reply's `msg_type` is the
trigger's `msg_type` (read as a string, `""` when absent or non-string)
with every occurrence of `_request` replaced by `_reply` — in
particular `"execute_request"` maps to exactly `"execute_reply"`; the
routing ids are copied verbatim from the trigger; and the reply's parent
header is the trigger's full header. -/
theorem reply_derivation_amended (jsi : JuServerId) (ud : String × String)
    (msg : JuMessage) :
    (new_reply_message jsi ud msg).header.index "msg_type"
      = .str (strReplace (((msg.header.index "msg_type").as_str).getD "")
          "_request" "_reply")
    ∧ (new_reply_message jsi ud msg).zmq_ids = msg.zmq_ids
    ∧ (new_reply_message jsi ud msg).parent_header = msg.header
    ∧ (msg.header.index "msg_type" = .str "execute_request" →
        (new_reply_message jsi ud msg).header.index "msg_type"
          = .str "execute_reply") := by
  refine ⟨index_new_header _ _ _, rfl, rfl, ?_⟩
  intro h
  rw [new_reply_message]
  rw [h]
  exact index_new_header _ _ _

/-- C5 witness. The amended derivation at a concrete
`execute_request` trigger with one routing id. -/
theorem reply_derivation_amended_witness :
    (new_reply_message (JuServerId.mk "sess" .none) ("u", "d")
        (JuMsg.mk [[5]] (.obj [("msg_type", .str "execute_request")])
          .null .null .null)).header.index "msg_type" = .str "execute_reply"
    ∧ (new_reply_message (JuServerId.mk "sess" .none) ("u", "d")
        (JuMsg.mk [[5]] (.obj [("msg_type", .str "execute_request")])
          .null .null .null)).zmq_ids = [[5]] := by
  have h := reply_derivation_amended (JuServerId.mk "sess" .none) ("u", "d")
    (JuMsg.mk [[5]] (.obj [("msg_type", .str "execute_request")]) .null .null .null)
  exact ⟨h.2.2.2 rfl, h.2.1⟩

/-! ## Shell-processor lemmas -/

/-- Projection of a trace onto the messages published on iopub. -/
def pubMsgs : List Event → List JuMessage :=
  List.filterMap (fun e => match e with | .pub m => some m | _ => Option.none)

/-- Publish events contribute their message to the iopub projection. -/
theorem pubMsgs_cons_pub (m : JuMessage) (evs : List Event) :
    pubMsgs (.pub m :: evs) = m :: pubMsgs evs := rfl

/-- Shell replies are invisible to the iopub projection. -/
theorem pubMsgs_cons_shell (m : JuMessage) (evs : List Event) :
    pubMsgs (.shell m :: evs) = pubMsgs evs := rfl

/-- The iopub projection distributes over trace concatenation. -/
theorem pubMsgs_append (a b : List Event) :
    pubMsgs (a ++ b) = pubMsgs a ++ pubMsgs b :=
  List.filterMap_append a b _

/-- The iopub projection of a list of publishes is the list itself. -/
theorem pubMsgs_map_pub (l : List JuMessage) : pubMsgs (l.map .pub) = l := by
  induction l with
  | nil => rfl
  | cons x xs ih => rw [List.map_cons, pubMsgs_cons_pub, ih]

/-- Dispatch on an `execute_request` with a non-string `code`: the counter
is bumped, nothing is sent, and the `NoCode` failure is returned. -/
theorem process_execute_noCode (k : JuKernel) (fr : Nat → String × String)
    (jsi : JuServerId) (st : PState) (msg : JuMessage)
    (hty : msg.header.index "msg_type" = .str "execute_request")
    (hnc : ∀ s, msg.content.index "code" ≠ .str s) :
    process_shell_msg k fr jsi st msg
      = ({ st with execution_count := (st.execution_count + 1) % U32MOD }, [],
         .error (.NoCode "execute_request message missing 'code' field")) := by
  rw [process_shell_msg, hty]
  rw [if_neg (by simp [JVal.eqStr]), if_neg (by simp [JVal.eqStr]),
    if_pos (by simp [JVal.eqStr])]
  rcases hc : msg.content.index "code" with _ | b | n | s | xs | kvs
  · simp [hc]
  · simp [hc]
  · simp [hc]
  · exact absurd hc (hnc s)
  · simp [hc]
  · simp [hc]

/-- Dispatch on an accepted `execute_request` whose evaluation succeeds:
execute_input publish, ok reply, one execute_result publish per value. -/
theorem process_execute_success (k : JuKernel) (fr : Nat → String × String)
    (jsi : JuServerId) (st : PState) (msg : JuMessage) (code : String)
    (results : List EvalValue)
    (hty : msg.header.index "msg_type" = .str "execute_request")
    (hcode : msg.content.index "code" = .str code)
    (hev : k.eval_code code = .Success results) :
    process_shell_msg k fr jsi st msg
      = ({ execution_count := (st.execution_count + 1) % U32MOD,
           gen := st.gen + 1 + 1 + results.length },
         .pub ((new_derived_message jsi (fr st.gen) msg "execute_input").with_content
             (.obj [("code", .str code),
                    ("execution_count", .num (((st.execution_count + 1) % U32MOD : Nat) : Int))]))
          :: .shell ((new_reply_message jsi (fr (st.gen + 1)) msg).with_content
             (.obj [("status", .str "ok"),
                    ("execution_count", .num (((st.execution_count + 1) % U32MOD : Nat) : Int))]))
          :: (execResultMsgs fr jsi msg ((st.execution_count + 1) % U32MOD)
               (st.gen + 1 + 1) results).map .pub,
         .ok ()) := by
  rw [process_shell_msg, hty]
  rw [if_neg (by simp [JVal.eqStr]), if_neg (by simp [JVal.eqStr]),
    if_pos (by simp [JVal.eqStr])]
  simp [hcode, hev]

/-- Dispatch on an accepted `execute_request` whose evaluation errors:
execute_input publish, error reply, error publish. -/
theorem process_execute_error (k : JuKernel) (fr : Nat → String × String)
    (jsi : JuServerId) (st : PState) (msg : JuMessage) (code : String)
    (ename evalue : JVal) (traceback : List JVal)
    (hty : msg.header.index "msg_type" = .str "execute_request")
    (hcode : msg.content.index "code" = .str code)
    (hev : k.eval_code code = .Error ename evalue traceback) :
    process_shell_msg k fr jsi st msg
      = ({ execution_count := (st.execution_count + 1) % U32MOD,
           gen := st.gen + 1 + 2 },
         [.pub ((new_derived_message jsi (fr st.gen) msg "execute_input").with_content
             (.obj [("code", .str code),
                    ("execution_count", .num (((st.execution_count + 1) % U32MOD : Nat) : Int))])),
          .shell ((new_reply_message jsi (fr (st.gen + 1)) msg).with_content
             (.obj [("status", .str "error"),
                    ("ename", ename),
                    ("evalue", evalue),
                    ("traceback", .arr traceback),
                    ("execution_count", .num (((st.execution_count + 1) % U32MOD : Nat) : Int))])),
          .pub ((new_derived_message jsi (fr (st.gen + 1 + 1)) msg "error").with_content
             (.obj [("ename", ename),
                    ("evalue", evalue),
                    ("traceback", .arr traceback)]))],
         .ok ()) := by
  rw [process_shell_msg, hty]
  rw [if_neg (by simp [JVal.eqStr]), if_neg (by simp [JVal.eqStr]),
    if_pos (by simp [JVal.eqStr])]
  simp [hcode, hev]

/-- The execute_result messages all carry the `execute_result` type. -/
theorem execResultMsgs_map_type (fr : Nat → String × String) (jsi : JuServerId)
    (msg : JuMessage) (cnt : Nat) (g : Nat) (evs : List EvalValue) :
    (execResultMsgs fr jsi msg cnt g evs).map (fun m => m.header.index "msg_type")
      = evs.map (fun _ => JVal.str "execute_result") := by
  induction evs generalizing g with
  | nil => rfl
  | cons ev evs ih =>
    rw [execResultMsgs, List.map_cons, List.map_cons, ih (g + 1)]
    rfl

/-- The execute_result messages carry no `execution_state` field. -/
theorem execResultMsgs_map_state (fr : Nat → String × String) (jsi : JuServerId)
    (msg : JuMessage) (cnt : Nat) (g : Nat) (evs : List EvalValue) :
    (execResultMsgs fr jsi msg cnt g evs).map (fun m => m.content.index "execution_state")
      = evs.map (fun _ => JVal.null) := by
  induction evs generalizing g with
  | nil => rfl
  | cons ev evs ih =>
    rw [execResultMsgs, List.map_cons, List.map_cons, ih (g + 1)]
    rfl

/-- Every execute_result message carries the given execution count. -/
theorem execResultMsgs_count (fr : Nat → String × String) (jsi : JuServerId)
    (msg : JuMessage) (cnt : Nat) (g : Nat) (evs : List EvalValue) :
    ∀ m ∈ execResultMsgs fr jsi msg cnt g evs,
      m.content.index "execution_count" = .num cnt := by
  induction evs generalizing g with
  | nil => simp [execResultMsgs]
  | cons ev evs ih =>
    intro m hm
    rw [execResultMsgs, List.mem_cons] at hm
    rcases hm with rfl | hm
    · rfl
    · exact ih (g + 1) m hm

/-! ## Claim theorems: shell loop sequencing -/

/-- C2. Publish-channel ordering per shell request: every inbound shell
message is bracketed — the derived "busy" status is the first send, before
dispatch, and a fresh "idle" status is the last, after dispatch, whatever
dispatch did; for an accepted `execute_request` the iopub notifications
appear in the order busy, execute_input, one execute_result per produced
value (success) or error (failure), idle; and the loop handles requests
strictly one at a time, each message's trace completed before the next
message is taken. -/
theorem shell_publish_ordering (k : JuKernel) (fr : Nat → String × String)
    (jsi : JuServerId) :
    (∀ (st : PState) (msg : JuMessage), ∃ mid g2 stF,
      handle_shell k fr jsi st msg
        = (stF, .pub ((new_derived_message jsi (fr st.gen) msg "status").with_content
              (.obj [("execution_state", .str "busy")]))
            :: mid ++ [.pub ((new_message jsi (fr g2) "status").with_content
              (.obj [("execution_state", .str "idle")]))]))
    ∧ (∀ (st : PState) (msg : JuMessage) (code : String) (results : List EvalValue),
        msg.header.index "msg_type" = .str "execute_request" →
        msg.content.index "code" = .str code →
        k.eval_code code = .Success results →
        (pubMsgs (handle_shell k fr jsi st msg).2).map (fun m => m.header.index "msg_type")
          = .str "status" :: .str "execute_input"
            :: (results.map (fun _ => .str "execute_result") ++ [.str "status"])
        ∧ (pubMsgs (handle_shell k fr jsi st msg).2).map
              (fun m => m.content.index "execution_state")
          = .str "busy" :: .null :: (results.map (fun _ => .null) ++ [.str "idle"]))
    ∧ (∀ (st : PState) (msg : JuMessage) (code : String)
          (ename evalue : JVal) (traceback : List JVal),
        msg.header.index "msg_type" = .str "execute_request" →
        msg.content.index "code" = .str code →
        k.eval_code code = .Error ename evalue traceback →
        (pubMsgs (handle_shell k fr jsi st msg).2).map (fun m => m.header.index "msg_type")
          = [.str "status", .str "execute_input", .str "error", .str "status"]
        ∧ (pubMsgs (handle_shell k fr jsi st msg).2).map
              (fun m => m.content.index "execution_state")
          = [.str "busy", .null, .null, .str "idle"])
    ∧ (∀ (st : PState) (m : JuMessage) (ms : List JuMessage),
        run_shell k fr jsi st (m :: ms)
          = ((run_shell k fr jsi (handle_shell k fr jsi st m).1 ms).1,
             (handle_shell k fr jsi st m).2
               ++ (run_shell k fr jsi (handle_shell k fr jsi st m).1 ms).2)) := by
  refine ⟨?_, ?_, ?_, ?_⟩
  · intro st msg
    exact ⟨(process_shell_msg k fr jsi { st with gen := st.gen + 1 } msg).2.1,
      (process_shell_msg k fr jsi { st with gen := st.gen + 1 } msg).1.gen, _, rfl⟩
  · intro st msg code results hty hcode hev
    rw [handle_shell, process_execute_success k fr jsi _ msg code results hty hcode hev]
    constructor
    · simp only [pubMsgs_cons_pub, pubMsgs_cons_shell, pubMsgs_append, pubMsgs_map_pub,
        List.map_cons, List.map_append]
      rw [execResultMsgs_map_type]
      simp [pubMsgs, new_derived_message, new_message, JuMsg.with_content, index_new_header]
    · simp only [pubMsgs_cons_pub, pubMsgs_cons_shell, pubMsgs_append, pubMsgs_map_pub,
        List.map_cons, List.map_append]
      rw [execResultMsgs_map_state]
      simp [pubMsgs, new_derived_message, new_message, JuMsg.with_content, JVal.index, lookupJ]
  · intro st msg code ename evalue traceback hty hcode hev
    rw [handle_shell, process_execute_error k fr jsi _ msg code ename evalue traceback
      hty hcode hev]
    exact ⟨rfl, rfl⟩
  · intro st m ms
    rfl

/-! ## Concrete fixtures for witnesses -/

/-- A concrete session identity. -/
def wJsi : JuServerId := ⟨"sess", .none⟩

/-- A concrete freshness oracle. -/
def wFr : Nat → String × String := fun _ => ("u", "d")

/-- A concrete pluggable kernel: evaluation errors on the code `"err"`,
otherwise produces one result value. -/
def wKernel : JuKernel :=
  ⟨⟨"testing", "0.0.0", "text/testing", ".testing", "banner", [("doc", "url")]⟩,
   fun code =>
     if code = "err" then .Error (.str "Error") (.str "boom") [.str "tb"]
     else .Success [⟨.str "four", .obj []⟩]⟩

/-- A concrete accepted `execute_request`. -/
def wExecMsg : JuMessage :=
  ⟨[], .obj [("msg_type", .str "execute_request")], .null, .null,
   .obj [("code", .str "2+2")]⟩

/-- A concrete `execute_request` without a `code` field. -/
def wNoCodeMsg : JuMessage :=
  ⟨[], .obj [("msg_type", .str "execute_request")], .null, .null, .obj []⟩

/-- C2 witness. The publish order at a concrete accepted
`execute_request` producing one result value. -/
theorem shell_publish_ordering_witness :
    wExecMsg.header.index "msg_type" = .str "execute_request"
    ∧ wKernel.eval_code "2+2" = .Success [⟨.str "four", .obj []⟩]
    ∧ (pubMsgs (handle_shell wKernel wFr wJsi ⟨0, 2⟩ wExecMsg).2).map
        (fun m => m.header.index "msg_type")
      = [.str "status", .str "execute_input", .str "execute_result", .str "status"] := by
  refine ⟨rfl, rfl, ?_⟩
  have h := (shell_publish_ordering wKernel wFr wJsi).2.1 ⟨0, 2⟩ wExecMsg "2+2"
    [⟨.str "four", .obj []⟩] rfl rfl rfl
  simpa using h.1

/-- C6 counterexample. An `execute_request` whose content has no
`code` field fails with `NoCode`, yet the execution counter has moved from
0 to 1: the claim that a `NoCode`-failing request leaves the counter
unchanged is false (the source increments before checking the field). -/
theorem execution_counter_counterexample :
    (process_shell_msg wKernel wFr wJsi ⟨0, 0⟩ wNoCodeMsg).2.2
      = .error (.NoCode "execute_request message missing 'code' field")
    ∧ (process_shell_msg wKernel wFr wJsi ⟨0, 0⟩ wNoCodeMsg).1.execution_count = 1
    ∧ (1 : Nat) ≠ 0 :=
  ⟨rfl, rfl, by decide⟩

/-- C6 (amended). Execution counter discipline: the counter is bumped
(by one, modulo `u32`) once for every `execute_request`, accepted or
not — in particular a request whose `content.code` is not a string still
increments it before failing with `NoCode` and sending nothing — and for
an accepted request the incremented value is the one carried in the
execute_input notification, in the reply (ok or error), and in every
execute_result notification. -/
theorem execution_counter_amended (k : JuKernel) (fr : Nat → String × String)
    (jsi : JuServerId) (st : PState) (msg : JuMessage)
    (hty : msg.header.index "msg_type" = .str "execute_request") :
    ((process_shell_msg k fr jsi st msg).1.execution_count
       = (st.execution_count + 1) % U32MOD)
    ∧ ((∀ s, msg.content.index "code" ≠ .str s) →
        (process_shell_msg k fr jsi st msg).2.1 = []
        ∧ (process_shell_msg k fr jsi st msg).2.2
            = .error (.NoCode "execute_request message missing 'code' field"))
    ∧ (∀ code results, msg.content.index "code" = .str code →
        k.eval_code code = .Success results →
        (process_shell_msg k fr jsi st msg).2.1
          = .pub ((new_derived_message jsi (fr st.gen) msg "execute_input").with_content
              (.obj [("code", .str code),
                     ("execution_count", .num (((st.execution_count + 1) % U32MOD : Nat) : Int))]))
            :: .shell ((new_reply_message jsi (fr (st.gen + 1)) msg).with_content
              (.obj [("status", .str "ok"),
                     ("execution_count", .num (((st.execution_count + 1) % U32MOD : Nat) : Int))]))
            :: (execResultMsgs fr jsi msg ((st.execution_count + 1) % U32MOD)
                 (st.gen + 1 + 1) results).map .pub
        ∧ ∀ m ∈ execResultMsgs fr jsi msg ((st.execution_count + 1) % U32MOD)
              (st.gen + 1 + 1) results,
            m.content.index "execution_count"
              = .num (((st.execution_count + 1) % U32MOD : Nat) : Int))
    ∧ (∀ code ename evalue traceback, msg.content.index "code" = .str code →
        k.eval_code code = .Error ename evalue traceback →
        ∃ code_msg err_msg, (process_shell_msg k fr jsi st msg).2.1
          = [.pub code_msg,
             .shell ((new_reply_message jsi (fr (st.gen + 1)) msg).with_content
               (.obj [("status", .str "error"), ("ename", ename), ("evalue", evalue),
                      ("traceback", .arr traceback),
                      ("execution_count", .num (((st.execution_count + 1) % U32MOD : Nat) : Int))])),
             .pub err_msg]) := by
  refine ⟨?_, ?_, ?_, ?_⟩
  · rcases hc : msg.content.index "code" with _ | b | n | s | xs | kvs
    · rw [process_execute_noCode k fr jsi st msg hty (by simp [hc])]
    · rw [process_execute_noCode k fr jsi st msg hty (by simp [hc])]
    · rw [process_execute_noCode k fr jsi st msg hty (by simp [hc])]
    · rcases he : k.eval_code s with results | ⟨en, ev, tb⟩
      · rw [process_execute_success k fr jsi st msg s results hty hc he]
      · rw [process_execute_error k fr jsi st msg s en ev tb hty hc he]
    · rw [process_execute_noCode k fr jsi st msg hty (by simp [hc])]
    · rw [process_execute_noCode k fr jsi st msg hty (by simp [hc])]
  · intro hnc
    rw [process_execute_noCode k fr jsi st msg hty hnc]
    exact ⟨rfl, rfl⟩
  · intro code results hcode hev
    rw [process_execute_success k fr jsi st msg code results hty hcode hev]
    exact ⟨rfl, execResultMsgs_count fr jsi msg _ _ results⟩
  · intro code ename evalue traceback hcode hev
    rw [process_execute_error k fr jsi st msg code ename evalue traceback hty hcode hev]
    exact ⟨_, _, rfl⟩

/-- C6 witness. The amended discipline at concrete requests: a
`NoCode` request moves the counter 0 → 1, and an accepted request moves it
41 → 42 with 42 carried in the execute_input content. -/
theorem execution_counter_amended_witness :
    (process_shell_msg wKernel wFr wJsi ⟨41, 0⟩ wExecMsg).1.execution_count = 42
    ∧ (process_shell_msg wKernel wFr wJsi ⟨0, 0⟩ wNoCodeMsg).2.1 = [] := by
  constructor
  · have h := (execution_counter_amended wKernel wFr wJsi ⟨41, 0⟩ wExecMsg rfl).1
    simpa [U32MOD] using h
  · exact ((execution_counter_amended wKernel wFr wJsi ⟨0, 0⟩ wNoCodeMsg rfl).2.1
      (by intro s h; simp [wNoCodeMsg, JVal.index, lookupJ] at h)).1

/-- C7. NoCode error scenario: for an `execute_request` whose content
has no string `code` field, the request's whole trace is just the busy and
idle status publishes — no execute_input, no execute_result, no shell
reply — the dispatch result is the `NoCode` failure, the idle bracket
still closes, and the loop goes on to process the remaining messages. -/
theorem noCode_request_handling (k : JuKernel) (fr : Nat → String × String)
    (jsi : JuServerId) (st : PState) (msg : JuMessage)
    (hty : msg.header.index "msg_type" = .str "execute_request")
    (hnc : ∀ s, msg.content.index "code" ≠ .str s) :
    handle_shell k fr jsi st msg
      = (⟨(st.execution_count + 1) % U32MOD, st.gen + 2⟩,
         [.pub ((new_derived_message jsi (fr st.gen) msg "status").with_content
            (.obj [("execution_state", .str "busy")])),
          .pub ((new_message jsi (fr (st.gen + 1)) "status").with_content
            (.obj [("execution_state", .str "idle")]))])
    ∧ (process_shell_msg k fr jsi { st with gen := st.gen + 1 } msg).2.2
        = .error (.NoCode "execute_request message missing 'code' field")
    ∧ (∀ ms, run_shell k fr jsi st (msg :: ms)
        = ((run_shell k fr jsi ⟨(st.execution_count + 1) % U32MOD, st.gen + 2⟩ ms).1,
           [.pub ((new_derived_message jsi (fr st.gen) msg "status").with_content
              (.obj [("execution_state", .str "busy")])),
            .pub ((new_message jsi (fr (st.gen + 1)) "status").with_content
              (.obj [("execution_state", .str "idle")]))]
             ++ (run_shell k fr jsi ⟨(st.execution_count + 1) % U32MOD, st.gen + 2⟩ ms).2)) := by
  have hp := process_execute_noCode k fr jsi { st with gen := st.gen + 1 } msg hty hnc
  have hh : handle_shell k fr jsi st msg
      = (⟨(st.execution_count + 1) % U32MOD, st.gen + 2⟩,
         [.pub ((new_derived_message jsi (fr st.gen) msg "status").with_content
            (.obj [("execution_state", .str "busy")])),
          .pub ((new_message jsi (fr (st.gen + 1)) "status").with_content
            (.obj [("execution_state", .str "idle")]))]) := by
    rw [handle_shell, hp]
    rfl
  refine ⟨hh, by rw [hp], ?_⟩
  intro ms
  have hD : run_shell k fr jsi st (msg :: ms)
      = ((run_shell k fr jsi (handle_shell k fr jsi st msg).1 ms).1,
         (handle_shell k fr jsi st msg).2
           ++ (run_shell k fr jsi (handle_shell k fr jsi st msg).1 ms).2) := rfl
  rw [hD, hh]

/-- C7 witness. The NoCode scenario at a concrete request: only the
busy and idle publishes appear, and the next message is still handled. -/
theorem noCode_request_handling_witness :
    (∀ s, wNoCodeMsg.content.index "code" ≠ .str s)
    ∧ handle_shell wKernel wFr wJsi ⟨0, 0⟩ wNoCodeMsg
        = (⟨1, 2⟩,
           [.pub ((new_derived_message wJsi ("u", "d") wNoCodeMsg "status").with_content
              (.obj [("execution_state", .str "busy")])),
            .pub ((new_message wJsi ("u", "d") "status").with_content
              (.obj [("execution_state", .str "idle")]))]) := by
  have hnc : ∀ s, wNoCodeMsg.content.index "code" ≠ .str s := by
    intro s h
    simp [wNoCodeMsg, JVal.index, lookupJ] at h
  exact ⟨hnc, (noCode_request_handling wKernel wFr wJsi ⟨0, 0⟩ wNoCodeMsg rfl hnc).1⟩

/-! ## Idle-freshness lemmas -/

/-- The execute_result messages carry no `execution_state` field
(membership form). -/
theorem execResultMsgs_state_mem (fr : Nat → String × String) (jsi : JuServerId)
    (msg : JuMessage) (cnt : Nat) (g : Nat) (evs : List EvalValue) :
    ∀ m ∈ execResultMsgs fr jsi msg cnt g evs,
      m.content.index "execution_state" = JVal.null := by
  induction evs generalizing g with
  | nil => simp [execResultMsgs]
  | cons ev evs ih =>
    intro m hm
    rw [execResultMsgs, List.mem_cons] at hm
    rcases hm with rfl | hm
    · rfl
    · exact ih (g + 1) m hm

/-- No message published by the dispatch itself carries an
`execution_state` field: dispatch publishes only execute_input,
execute_result and error notifications. -/
theorem process_pub_state_null (k : JuKernel) (fr : Nat → String × String)
    (jsi : JuServerId) (st : PState) (msg : JuMessage) :
    ∀ m, Event.pub m ∈ (process_shell_msg k fr jsi st msg).2.1 →
      m.content.index "execution_state" = JVal.null := by
  intro m hm
  rw [process_shell_msg] at hm
  split at hm
  · simp at hm
  · split at hm
    · simp at hm
    · split at hm
      · split at hm
        · split at hm
          · simp only [List.mem_cons] at hm
            rcases hm with heq | heq | hm
            · cases heq
              rfl
            · exact absurd heq (by simp)
            · rcases List.mem_map.mp hm with ⟨o, ho, heq⟩
              simp only [Event.pub.injEq] at heq
              subst heq
              exact execResultMsgs_state_mem fr jsi msg _ _ _ _ ho
          · simp only [List.mem_cons] at hm
            rcases hm with heq | heq | heq | hm
            · cases heq
              rfl
            · exact absurd heq (by simp)
            · cases heq
              rfl
            · simp at hm
        · simp at hm
      · simp at hm

/-- The per-message trace of the shell loop, decomposed. -/
theorem handle_shell_events (k : JuKernel) (fr : Nat → String × String)
    (jsi : JuServerId) (st : PState) (msg : JuMessage) :
    (handle_shell k fr jsi st msg).2
      = .pub ((new_derived_message jsi (fr st.gen) msg "status").with_content
          (.obj [("execution_state", .str "busy")]))
        :: (process_shell_msg k fr jsi { st with gen := st.gen + 1 } msg).2.1
        ++ [.pub ((new_message jsi
             (fr (process_shell_msg k fr jsi { st with gen := st.gen + 1 } msg).1.gen)
             "status").with_content (.obj [("execution_state", .str "idle")]))] := rfl

/-- Any idle-status publish inside one message's trace is a fresh
unsolicited message: empty parent header and no routing ids. -/
theorem handle_pub_idle (k : JuKernel) (fr : Nat → String × String)
    (jsi : JuServerId) (st : PState) (msg : JuMessage) :
    ∀ m, Event.pub m ∈ (handle_shell k fr jsi st msg).2 →
      m.content.index "execution_state" = .str "idle" →
      m.parent_header = .obj [] ∧ m.zmq_ids = [] := by
  intro m hm hidle
  rw [handle_shell_events] at hm
  simp only [List.mem_cons, List.mem_append, List.mem_singleton, Event.pub.injEq,
    List.not_mem_nil, or_false] at hm
  rcases hm with (heq | hm) | heq
  · subst heq
    exact absurd hidle (by simp [new_derived_message, JuMsg.with_content, JVal.index, lookupJ])
  · have hnull := process_pub_state_null k fr jsi _ msg m hm
    rw [hnull] at hidle
    exact absurd hidle (by simp)
  · subst heq
    exact ⟨rfl, rfl⟩

/-- Idle freshness over the whole loop. -/
theorem run_shell_pub_idle (k : JuKernel) (fr : Nat → String × String)
    (jsi : JuServerId) (msgs : List JuMessage) :
    ∀ st m, Event.pub m ∈ (run_shell k fr jsi st msgs).2 →
      m.content.index "execution_state" = .str "idle" →
      m.parent_header = .obj [] ∧ m.zmq_ids = [] := by
  induction msgs with
  | nil =>
    intro st m hm
    simp [run_shell] at hm
  | cons x xs ih =>
    intro st m hm hidle
    have hsplit : (run_shell k fr jsi st (x :: xs)).2
        = (handle_shell k fr jsi st x).2
          ++ (run_shell k fr jsi (handle_shell k fr jsi st x).1 xs).2 := rfl
    rw [hsplit, List.mem_append] at hm
    rcases hm with hm | hm
    · exact handle_pub_idle k fr jsi st x m hm hidle
    · exact ih (handle_shell k fr jsi st x).1 m hm hidle

/-! ## Claim theorem: idle notifications are fresh -/

/-- C10. Every "idle" status notification published by the shell
processor — the one at loop entry and the one closing each request's
busy/idle bracket — is a fresh unsolicited message with empty parent
header and no routing ids, while the "busy" notification opening a
request's bracket is derived: its parent header is the trigger's full
header. -/
theorem idle_notifications_fresh (k : JuKernel) (fr : Nat → String × String)
    (jsi : JuServerId) (msgs : List JuMessage) :
    (∀ m, Event.pub m ∈ (shell_processor_run k fr jsi msgs).2 →
      m.header.index "msg_type" = .str "status" →
      m.content.index "execution_state" = .str "idle" →
      m.parent_header = .obj [] ∧ m.zmq_ids = [])
    ∧ (∀ (st : PState) (msg : JuMessage), ∃ rest,
        (handle_shell k fr jsi st msg).2
          = .pub ((new_derived_message jsi (fr st.gen) msg "status").with_content
              (.obj [("execution_state", .str "busy")])) :: rest
        ∧ ((new_derived_message jsi (fr st.gen) msg "status").with_content
              (.obj [("execution_state", .str "busy")])).parent_header = msg.header
        ∧ ((new_derived_message jsi (fr st.gen) msg "status").with_content
              (.obj [("execution_state", .str "busy")])).header.index "msg_type"
            = .str "status") := by
  constructor
  · intro m hm _ hidle
    have htrace : (shell_processor_run k fr jsi msgs).2
        = .pub ((new_message jsi (fr 0) "status").with_content
            (.obj [("execution_state", .str "starting")]))
          :: .pub ((new_message jsi (fr 1) "status").with_content
            (.obj [("execution_state", .str "idle")]))
          :: (run_shell k fr jsi ⟨0, 2⟩ msgs).2 := rfl
    rw [htrace, List.mem_cons, List.mem_cons] at hm
    rcases hm with heq | heq | hm
    · cases heq
      exact ⟨rfl, rfl⟩
    · cases heq
      exact ⟨rfl, rfl⟩
    · exact run_shell_pub_idle k fr jsi msgs ⟨0, 2⟩ m hm hidle
  · intro st msg
    exact ⟨_, handle_shell_events k fr jsi st msg, rfl, rfl⟩

/-- C10 witness. Freshness at a concrete two-request run: the idle
notification closing the first bracket has empty parent header and no
routing ids, and the busy notification carries the trigger's header. -/
theorem idle_notifications_fresh_witness :
    Event.pub ((new_message wJsi ("u", "d") "status").with_content
        (.obj [("execution_state", .str "idle")]))
      ∈ (shell_processor_run wKernel wFr wJsi [wNoCodeMsg]).2
    ∧ ((new_message wJsi ("u", "d") "status").with_content
        (.obj [("execution_state", .str "idle")])).parent_header = .obj []
    ∧ ((new_derived_message wJsi ("u", "d") wNoCodeMsg "status").with_content
        (.obj [("execution_state", .str "busy")])).parent_header = wNoCodeMsg.header := by
  have hmem : Event.pub ((new_message wJsi ("u", "d") "status").with_content
      (.obj [("execution_state", .str "idle")]))
      ∈ (shell_processor_run wKernel wFr wJsi [wNoCodeMsg]).2 := by
    show Event.pub ((new_message wJsi ("u", "d") "status").with_content
        (.obj [("execution_state", .str "idle")]))
      ∈ Event.pub ((new_message wJsi ("u", "d") "status").with_content
          (.obj [("execution_state", .str "starting")]))
        :: Event.pub ((new_message wJsi ("u", "d") "status").with_content
          (.obj [("execution_state", .str "idle")]))
        :: (run_shell wKernel wFr wJsi ⟨0, 2⟩ [wNoCodeMsg]).2
    exact List.mem_cons_of_mem _ (List.mem_cons_self _ _)
  have h := (idle_notifications_fresh wKernel wFr wJsi [wNoCodeMsg]).1 _ hmem rfl rfl
  have hb := (idle_notifications_fresh wKernel wFr wJsi [wNoCodeMsg]).2 ⟨0, 2⟩ wNoCodeMsg
  exact ⟨hmem, h.1, hb.choose_spec.2.1⟩

/-! ## Claim theorem: shutdown handling -/

/-- C8. Shutdown handling: for a control message whose `msg_type` is
`"shutdown_request"`, the restart flag is `content.restart` read as a
boolean, `false` when the field is absent or not a boolean; a reply with
content `{status: "ok", restart: flag}` is sent on the control channel;
and the loop terminates immediately, returning exactly that flag. -/
theorem shutdown_handling (jsi : JuServerId) (fr : Nat → String × String)
    (g : Nat) (msg : JuMessage) (msgs : List JuMessage)
    (hty : msg.header.index "msg_type" = .str "shutdown_request") :
    ∃ reply flag,
      control_run jsi fr g (msg :: msgs) = ([.control reply], some flag)
      ∧ flag = ((msg.content.index "restart").as_bool).getD false
      ∧ (∀ b, msg.content.index "restart" = .bool b → flag = b)
      ∧ ((∀ b, msg.content.index "restart" ≠ .bool b) → flag = false)
      ∧ reply = (new_reply_message jsi (fr g) msg).with_content
          (.obj [("status", .str "ok"), ("restart", .bool flag)])
      ∧ reply.content = .obj [("status", .str "ok"), ("restart", .bool flag)] := by
  have hstep : control_step jsi (fr g) msg
      = some ((new_reply_message jsi (fr g) msg).with_content
          (.obj [("status", .str "ok"),
                 ("restart", .bool (((msg.content.index "restart").as_bool).getD false))]),
        ((msg.content.index "restart").as_bool).getD false) := by
    rw [control_step, hty]
    show (if "shutdown_request" = "shutdown_request" then _ else _) = _
    rw [if_pos rfl]
    rcases hb : (msg.content.index "restart").as_bool with _ | b <;> simp [hb]
  refine ⟨_, _, ?_, rfl, ?_, ?_, rfl, rfl⟩
  · show (match control_step jsi (fr g) msg with
      | some (reply, restart) => ([Event.control reply], some restart)
      | Option.none => control_run jsi fr g msgs) = _
    rw [hstep]
  · intro b hb
    rw [hb]
    rfl
  · intro hnb
    rcases hb : (msg.content.index "restart").as_bool with _ | b
    · simp [hb]
    · rcases hmatch : msg.content.index "restart" with _ | b' | n | s | xs | kvs <;>
        rw [hmatch] at hb <;> simp [JVal.as_bool] at hb
      exact absurd hmatch (hnb b')

/-- C8 witness. A concrete `shutdown_request{restart:true}` yields the
ok/restart reply on the control channel and terminates reporting `true`. -/
theorem shutdown_handling_witness :
    control_run wJsi wFr 0
        [⟨[], .obj [("msg_type", .str "shutdown_request")], .null, .null,
          .obj [("restart", .bool true)]⟩]
      = ([.control ((new_reply_message wJsi ("u", "d")
            ⟨[], .obj [("msg_type", .str "shutdown_request")], .null, .null,
             .obj [("restart", .bool true)]⟩).with_content
          (.obj [("status", .str "ok"), ("restart", .bool true)]))], some true) := by
  have h := shutdown_handling wJsi wFr 0
    ⟨[], .obj [("msg_type", .str "shutdown_request")], .null, .null,
     .obj [("restart", .bool true)]⟩ [] rfl
  rcases h with ⟨reply, flag, hrun, hflag, _hb, _hnb, hreply, _⟩
  rw [hrun, hflag] at *
  rw [hreply]
  rfl

end Juker
